import Mathlib

/-!
Verification development for the multitask BERT training harness
(`multitask_classifier.py`).  The Python source is shallowly embedded:
floating-point arithmetic is modelled by the real numbers, integer
arithmetic by `Int`/`Nat`, Python exceptions by `Except PyErr`, tensors
by lists, and the external collaborators (the BERT encoder, dropout
masks, the autograd/optimizer update and the file system) by explicit
function parameters or abstract state, following the contracts stated
for them in the design document.
-/

namespace MinBert

/-- Python runtime errors that the embedded code can raise. -/
inductive PyErr where
  | assertionError
  | zeroDivisionError
deriving DecidableEq, Repr

/-- Embedding of `compute_alpha(epoch, total_epoch, alpha_start, alpha_end,
linear_decay)` (source lines 178-186).  The `assert 0 <= epoch < total_epoch`
is modelled by the first guard; Python raises `ZeroDivisionError` when the
divisor `total_epoch - 1` is zero (both branches divide by it), and in the
exponential branch also when `alpha_start` is zero (`alpha_end / alpha_start`).
Python `**` on floats is modelled by `Real.rpow`. -/
noncomputable def compute_alpha (epoch total_epoch : ℤ) (alpha_start alpha_end : ℝ)
    (linear_decay : Bool) : Except PyErr ℝ :=
  if ¬ (0 ≤ epoch ∧ epoch < total_epoch) then .error .assertionError
  else if total_epoch - 1 = 0 then .error .zeroDivisionError
  else if linear_decay then
    .ok (alpha_start - (alpha_start - alpha_end) * (epoch : ℝ) / ((total_epoch : ℝ) - 1))
  else if alpha_start = 0 then .error .zeroDivisionError
  else .ok (alpha_start * (alpha_end / alpha_start) ^ ((epoch : ℝ) / ((total_epoch : ℝ) - 1)))

lemma total_epoch_cast_sub_one_ne_zero {T : ℤ} (hT : 1 < T) : (T : ℝ) - 1 ≠ 0 := by
  have h1 : (1 : ℝ) < (T : ℝ) := by exact_mod_cast hT
  exact sub_ne_zero.mpr (ne_of_gt h1)

lemma compute_alpha_ok_linear {e T : ℤ} (s en : ℝ) (h0 : 0 ≤ e) (h1 : e < T) (h2 : 1 < T) :
    compute_alpha e T s en true =
      .ok (s - (s - en) * (e : ℝ) / ((T : ℝ) - 1)) := by
  unfold compute_alpha
  rw [if_neg (by push_neg; omega), if_neg (by omega), if_pos rfl]

lemma compute_alpha_ok_exp {e T : ℤ} (s en : ℝ) (hs : s ≠ 0)
    (h0 : 0 ≤ e) (h1 : e < T) (h2 : 1 < T) :
    compute_alpha e T s en false =
      .ok (s * (en / s) ^ ((e : ℝ) / ((T : ℝ) - 1))) := by
  unfold compute_alpha
  rw [if_neg (by push_neg; omega), if_neg (by omega)]
  simp [hs]

/-- C1: in linear mode `compute_alpha` is the linear interpolation from
`alpha_start` at epoch `0` to `alpha_end` at epoch `total_epochs - 1`;
the three concrete evaluations of the spec hold, and for every
`total_epochs = T > 1` both endpoints are exact in both the linear and
the exponential mode (at the default coefficients `1.0` and `0.2`). -/
theorem compute_alpha_linear_interpolation_and_endpoints :
    (∀ (e T : ℤ) (s en : ℝ), 0 ≤ e → e < T → 1 < T →
        compute_alpha e T s en true =
          .ok (s + (en - s) * (e : ℝ) / ((T : ℝ) - 1)))
    ∧ compute_alpha 0 5 1 0.2 true = .ok 1
    ∧ compute_alpha 4 5 1 0.2 true = .ok 0.2
    ∧ compute_alpha 2 5 1 0.2 true = .ok 0.6
    ∧ (∀ T : ℤ, 1 < T → ∀ b : Bool,
        compute_alpha 0 T 1 0.2 b = .ok 1 ∧
        compute_alpha (T - 1) T 1 0.2 b = .ok 0.2) := by
  refine ⟨?_, ?_, ?_, ?_, ?_⟩
  · intro e T s en h0 h1 h2
    rw [compute_alpha_ok_linear s en h0 h1 h2]
    congr 1
    ring
  · rw [compute_alpha_ok_linear 1 0.2 (by norm_num) (by norm_num) (by norm_num)]
    norm_num
  · rw [compute_alpha_ok_linear 1 0.2 (by norm_num) (by norm_num) (by norm_num)]
    norm_num
  · rw [compute_alpha_ok_linear 1 0.2 (by norm_num) (by norm_num) (by norm_num)]
    norm_num
  · intro T hT b
    have hne : (T : ℝ) - 1 ≠ 0 := total_epoch_cast_sub_one_ne_zero hT
    cases b with
    | true =>
        constructor
        · rw [compute_alpha_ok_linear 1 0.2 (by omega) (by omega) hT]
          norm_num
        · rw [compute_alpha_ok_linear 1 0.2 (by omega) (by omega) hT]
          have hc : ((T - 1 : ℤ) : ℝ) = (T : ℝ) - 1 := by push_cast; ring
          rw [hc, mul_div_assoc, div_self hne]
          norm_num
    | false =>
        constructor
        · rw [compute_alpha_ok_exp 1 0.2 (by norm_num) (by omega) (by omega) hT]
          norm_num
        · rw [compute_alpha_ok_exp 1 0.2 (by norm_num) (by omega) (by omega) hT]
          have hc : ((T - 1 : ℤ) : ℝ) = (T : ℝ) - 1 := by push_cast; ring
          rw [hc, div_self hne, Real.rpow_one]
          norm_num

/-- Witness for C1: the endpoint clause applied at `T = 3` in exponential mode. -/
theorem compute_alpha_linear_interpolation_and_endpoints_witness :
    compute_alpha 0 3 1 0.2 false = .ok 1 :=
  (compute_alpha_linear_interpolation_and_endpoints.2.2.2.2 3 (by norm_num) false).1

/-- C7 counterexample: at `epoch = 0`, `total_epochs = 1` the precondition
`total_epochs > 1` is violated, yet the call does not fail with the
invariant-violation (assertion) error: the `assert 0 <= epoch < total_epoch`
passes and the division by `total_epoch - 1 = 0` raises a division-by-zero
error instead. -/
theorem compute_alpha_violation_not_assertion :
    ¬ (0 ≤ (0 : ℤ) ∧ (0 : ℤ) < 1 ∧ (1 : ℤ) < 1)
    ∧ compute_alpha 0 1 1 0.2 true = .error .zeroDivisionError
    ∧ compute_alpha 0 1 1 0.2 true ≠ .error .assertionError := by
  refine ⟨by omega, ?_, ?_⟩
  · unfold compute_alpha
    norm_num
  · unfold compute_alpha
    norm_num
    decide

/-- C7 (amended): at the default coefficients, `compute_alpha` returns a value
exactly under the precondition `0 ≤ epoch < total_epochs ∧ total_epochs > 1`;
a call with `epoch` out of range fails with the invariant-violation
(assertion) error, while a call with `epoch` in range but
`total_epochs ≤ 1` fails with a division-by-zero error.  Either way the
error is returned to the caller unhandled. -/
theorem compute_alpha_defined_iff_precondition (e T : ℤ) (b : Bool) :
    ((∃ v, compute_alpha e T 1 0.2 b = .ok v) ↔ (0 ≤ e ∧ e < T ∧ 1 < T))
    ∧ (¬ (0 ≤ e ∧ e < T) → compute_alpha e T 1 0.2 b = .error .assertionError)
    ∧ (0 ≤ e → e < T → T ≤ 1 → compute_alpha e T 1 0.2 b = .error .zeroDivisionError) := by
  refine ⟨⟨?_, ?_⟩, ?_, ?_⟩
  · rintro ⟨v, hv⟩
    by_contra hc
    unfold compute_alpha at hv
    by_cases h1 : 0 ≤ e ∧ e < T
    · have hT : T = 1 := by omega
      rw [if_neg (by push_neg; omega), if_pos (by omega)] at hv
      exact Except.noConfusion hv
    · rw [if_pos h1] at hv
      exact Except.noConfusion hv
  · rintro ⟨h0, h1, h2⟩
    cases b with
    | true => exact ⟨_, compute_alpha_ok_linear 1 0.2 h0 h1 h2⟩
    | false => exact ⟨_, compute_alpha_ok_exp 1 0.2 (by norm_num) h0 h1 h2⟩
  · intro h
    unfold compute_alpha
    rw [if_pos h]
  · intro h0 h1 h2
    have hT : T = 1 := by omega
    unfold compute_alpha
    rw [if_neg (by push_neg; omega), if_pos (by omega)]

/-- Witness for C7 (amended): a negative epoch fails with the assertion error. -/
theorem compute_alpha_defined_iff_precondition_witness :
    compute_alpha (-1) 5 1 0.2 true = .error .assertionError :=
  (compute_alpha_defined_iff_precondition (-1) 5 true).2.1 (by omega)

/-- Embedding of `get_task_probs(alpha, sizes)` (source lines 188-191):
the NumPy array of dataset sizes is a list of reals, elementwise
`sizes ** alpha` is `Real.rpow`, and the result is normalized by the sum. -/
noncomputable def get_task_probs (alpha : ℝ) (sizes : List ℝ) : List ℝ :=
  let scaled := sizes.map (fun s => s ^ alpha)
  scaled.map (fun x => x / scaled.sum)

lemma list_sum_map_div (l : List ℝ) (c : ℝ) :
    (l.map (fun x => x / c)).sum = l.sum / c := by
  induction l with
  | nil => simp
  | cons a t ih => simp [ih, add_div]

lemma list_sum_map_one (l : List ℝ) :
    (l.map (fun _ => (1 : ℝ))).sum = (l.length : ℝ) := by
  induction l with
  | nil => simp
  | cons a t ih => simp [ih]; ring

/-- C2: the entries of `get_task_probs alpha sizes` sum to `1` for every
`alpha` and every nonempty list of positive sizes; at `alpha = 0` the
result is the uniform distribution over the tasks, at `alpha = 1` it is
the size-proportional distribution; and the two concrete evaluations of
the spec hold. -/
theorem get_task_probs_normalized_uniform_proportional :
    (∀ (alpha : ℝ) (sizes : List ℝ), sizes ≠ [] → (∀ s ∈ sizes, 0 < s) →
        (get_task_probs alpha sizes).sum = 1)
    ∧ (∀ sizes : List ℝ,
        get_task_probs 0 sizes = sizes.map (fun _ => 1 / (sizes.length : ℝ)))
    ∧ (∀ sizes : List ℝ,
        get_task_probs 1 sizes = sizes.map (fun s => s / sizes.sum))
    ∧ get_task_probs 1 [100, 300, 600] = [0.1, 0.3, 0.6]
    ∧ get_task_probs 0 [100, 300, 600] = [1 / 3, 1 / 3, 1 / 3] := by
  refine ⟨?_, ?_, ?_, ?_, ?_⟩
  · intro alpha sizes hne hpos
    have hscaled_pos : ∀ x ∈ sizes.map (fun s => s ^ alpha), 0 < x := by
      intro x hx
      rcases List.mem_map.mp hx with ⟨s, hs, rfl⟩
      exact Real.rpow_pos_of_pos (hpos s hs) alpha
    have hscaled_ne : sizes.map (fun s => s ^ alpha) ≠ [] := by
      simpa using hne
    have hsum_pos : 0 < (sizes.map (fun s => s ^ alpha)).sum :=
      List.sum_pos _ hscaled_pos hscaled_ne
    unfold get_task_probs
    rw [list_sum_map_div]
    exact div_self (ne_of_gt hsum_pos)
  · intro sizes
    unfold get_task_probs
    simp only [Real.rpow_zero, list_sum_map_one, List.map_map]
    rfl
  · intro sizes
    unfold get_task_probs
    simp only [Real.rpow_one, List.map_id']
  · unfold get_task_probs
    simp only [Real.rpow_one]
    norm_num
  · unfold get_task_probs
    simp only [Real.rpow_zero]
    norm_num

/-- Witness for C2: the normalization clause applied to two concrete tasks. -/
theorem get_task_probs_normalized_uniform_proportional_witness :
    (get_task_probs 2 [1, 2]).sum = 1 :=
  get_task_probs_normalized_uniform_proportional.1 2 [1, 2] (by simp)
    (by intro s hs; rcases List.mem_cons.mp hs with rfl | hs'
        · norm_num
        · rcases List.mem_singleton.mp hs' with rfl; norm_num)

/-- A `torch.nn.Linear(in_features, out_features)` layer: `weight` holds
`out_features` rows of length `in_features`, `bias` has length
`out_features`. -/
structure Linear where
  weight : List (List ℝ)
  bias : List ℝ

/-- Dot product of two vectors (rows are truncated to the common length,
which never happens on well-formed shapes). -/
noncomputable def dot (xs ys : List ℝ) : ℝ :=
  (List.zipWith (fun a b => a * b) xs ys).sum

/-- Applying a linear layer to one input vector: one output per weight row. -/
noncomputable def Linear.apply (l : Linear) (x : List ℝ) : List ℝ :=
  List.zipWith (fun row b => dot row x + b) l.weight l.bias

/-- Applying a linear layer to a batch (one row per example). -/
noncomputable def Linear.applyBatch (l : Linear) (xs : List (List ℝ)) : List (List ℝ) :=
  xs.map l.apply

/-- Embedding of `.squeeze(-1)` on a `B x 1` tensor: keep the single entry
of each row. -/
noncomputable def squeezeLast (xs : List (List ℝ)) : List ℝ :=
  xs.map (fun r => r.headD 0)

/-- Embedding of the `MultitaskBERT` module (source lines 58-145).  The
external BERT encoder is an opaque per-example function from token ids and
attention mask to the pooled `[CLS]` vector; `dropout` is one fixed
realization of the dropout randomness (deterministic identity at eval
time); the five task heads are linear layers, and `siamese` is the
dual-encoding flag from the config. -/
structure MultitaskBERT where
  bert : List ℤ → List ℤ → List ℝ
  dropout : List ℝ → List ℝ
  sst_dense : Linear
  para_dense : Linear
  para_dense_siamese : Linear
  sts_dense : Linear
  sts_dense_siamese : Linear
  siamese : Bool

/-- Embedding of `MultitaskBERT.forward`: the batched encoder pass, one
pooled vector per example. -/
noncomputable def MultitaskBERT.forward (m : MultitaskBERT)
    (input_ids attention_mask : List (List ℤ)) : List (List ℝ) :=
  List.zipWith m.bert input_ids attention_mask

/-- Embedding of `MultitaskBERT.predict_sentiment` (lines 98-106). -/
noncomputable def MultitaskBERT.predict_sentiment (m : MultitaskBERT)
    (input_ids attention_mask : List (List ℤ)) : List (List ℝ) :=
  let pooler_output := m.forward input_ids attention_mask
  m.sst_dense.applyBatch (pooler_output.map m.dropout)

/-- Embedding of `MultitaskBERT.predict_paraphrase` (lines 109-126). -/
noncomputable def MultitaskBERT.predict_paraphrase (m : MultitaskBERT)
    (input_ids_1 attention_mask_1 input_ids_2 attention_mask_2 : List (List ℤ)) : List ℝ :=
  if m.siamese = false then
    squeezeLast (m.para_dense.applyBatch ((m.forward input_ids_1 attention_mask_1).map m.dropout))
  else
    let pooler_output_1 := m.forward input_ids_1 attention_mask_1
    let pooler_output_2 := m.forward input_ids_2 attention_mask_2
    let concat := List.zipWith (fun a b => a ++ b) pooler_output_1 pooler_output_2
    squeezeLast (m.para_dense_siamese.applyBatch (concat.map m.dropout))

/-- Embedding of `MultitaskBERT.predict_similarity` (lines 129-145). -/
noncomputable def MultitaskBERT.predict_similarity (m : MultitaskBERT)
    (input_ids_1 attention_mask_1 input_ids_2 attention_mask_2 : List (List ℤ)) : List ℝ :=
  if m.siamese = false then
    squeezeLast (m.sts_dense.applyBatch ((m.forward input_ids_1 attention_mask_1).map m.dropout))
  else
    let pooler_output_1 := m.forward input_ids_1 attention_mask_1
    let pooler_output_2 := m.forward input_ids_2 attention_mask_2
    let concat := List.zipWith (fun a b => a ++ b) pooler_output_1 pooler_output_2
    squeezeLast (m.sts_dense_siamese.applyBatch (concat.map m.dropout))

/-- C3: in single-encoding (non-siamese) mode, the paraphrase and
similarity predictions are completely independent of the second
sequence: two calls agreeing on the first sequence ids and mask (and on
the model, hence its parameters and dropout realization) return equal
outputs whatever the second sequence ids and mask are. -/
theorem predict_pair_ignores_second_input (m : MultitaskBERT)
    (h : m.siamese = false)
    (ids1 mask1 ids2 mask2 ids2' mask2' : List (List ℤ)) :
    m.predict_paraphrase ids1 mask1 ids2 mask2 =
      m.predict_paraphrase ids1 mask1 ids2' mask2'
    ∧ m.predict_similarity ids1 mask1 ids2 mask2 =
      m.predict_similarity ids1 mask1 ids2' mask2' := by
  constructor <;>
    simp [MultitaskBERT.predict_paraphrase, MultitaskBERT.predict_similarity, h]

/-- A concrete single-output head used by the witnesses. -/
noncomputable def exampleHead1 : Linear := ⟨[[1]], [0]⟩

/-- A concrete five-output head used by the witnesses. -/
noncomputable def exampleHead5 : Linear := ⟨[[1], [1], [1], [1], [1]], [0, 0, 0, 0, 0]⟩

/-- A concrete two-input single-output head used by the witnesses. -/
noncomputable def exampleHeadSiam : Linear := ⟨[[1, 1]], [0]⟩

/-- A concrete model instance used by the witnesses. -/
noncomputable def exampleModel (siam : Bool) : MultitaskBERT :=
  { bert := fun _ _ => [1]
    dropout := id
    sst_dense := exampleHead5
    para_dense := exampleHead1
    para_dense_siamese := exampleHeadSiam
    sts_dense := exampleHead1
    sts_dense_siamese := exampleHeadSiam
    siamese := siam }

/-- Witness for C3: concrete calls that differ only in the second sequence. -/
theorem predict_pair_ignores_second_input_witness :
    (exampleModel false).predict_paraphrase [[1]] [[1]] [[2]] [[2]] =
      (exampleModel false).predict_paraphrase [[1]] [[1]] [[3]] [[3]]
    ∧ (exampleModel false).predict_similarity [[1]] [[1]] [[2]] [[2]] =
      (exampleModel false).predict_similarity [[1]] [[1]] [[3]] [[3]] :=
  predict_pair_ignores_second_input (exampleModel false) rfl [[1]] [[1]] [[2]] [[2]] [[3]] [[3]]

/-- The number of sentiment classes (source line 55 and the `num_labels`
entry of the model config). -/
def N_SENTIMENT_CLASSES : ℕ := 5

lemma Linear.apply_length (l : Linear) (x : List ℝ) :
    (l.apply x).length = min l.weight.length l.bias.length := by
  simp [Linear.apply]

/-- C8: on a batch of size `B` (all four id/mask tensors of leading
dimension `B`), with the heads shaped as the constructor builds them
(`sst` head with `N_SENTIMENT_CLASSES = 5` outputs, all pair heads with
one output), `predict_sentiment` returns `B` rows of `5` logits each,
and `predict_paraphrase` and `predict_similarity` return a length-`B`
vector of scalars in both single-encoding and dual-encoding modes. -/
theorem predict_output_shapes (m : MultitaskBERT) (B : ℕ)
    (hw : m.sst_dense.weight.length = N_SENTIMENT_CLASSES)
    (hb : m.sst_dense.bias.length = N_SENTIMENT_CLASSES)
    (hpw : m.para_dense.weight.length = 1) (hpb : m.para_dense.bias.length = 1)
    (hpsw : m.para_dense_siamese.weight.length = 1) (hpsb : m.para_dense_siamese.bias.length = 1)
    (hsw : m.sts_dense.weight.length = 1) (hsb : m.sts_dense.bias.length = 1)
    (hssw : m.sts_dense_siamese.weight.length = 1) (hssb : m.sts_dense_siamese.bias.length = 1)
    (ids1 mask1 ids2 mask2 : List (List ℤ))
    (h1 : ids1.length = B) (h2 : mask1.length = B)
    (h3 : ids2.length = B) (h4 : mask2.length = B) :
    (m.predict_sentiment ids1 mask1).length = B
    ∧ (∀ row ∈ m.predict_sentiment ids1 mask1, row.length = N_SENTIMENT_CLASSES)
    ∧ (({ m with siamese := false }).predict_paraphrase ids1 mask1 ids2 mask2).length = B
    ∧ (({ m with siamese := true }).predict_paraphrase ids1 mask1 ids2 mask2).length = B
    ∧ (({ m with siamese := false }).predict_similarity ids1 mask1 ids2 mask2).length = B
    ∧ (({ m with siamese := true }).predict_similarity ids1 mask1 ids2 mask2).length = B := by
  refine ⟨?_, ?_, ?_, ?_, ?_, ?_⟩
  · simp [MultitaskBERT.predict_sentiment, MultitaskBERT.forward, Linear.applyBatch,
      h1, h2]
  · intro row hrow
    simp only [MultitaskBERT.predict_sentiment, Linear.applyBatch, List.mem_map] at hrow
    rcases hrow with ⟨x, _, rfl⟩
    simp [Linear.apply_length, hw, hb]
  · simp [MultitaskBERT.predict_paraphrase, MultitaskBERT.forward, Linear.applyBatch,
      squeezeLast, h1, h2]
  · simp [MultitaskBERT.predict_paraphrase, MultitaskBERT.forward, Linear.applyBatch,
      squeezeLast, h1, h2, h3, h4]
  · simp [MultitaskBERT.predict_similarity, MultitaskBERT.forward, Linear.applyBatch,
      squeezeLast, h1, h2]
  · simp [MultitaskBERT.predict_similarity, MultitaskBERT.forward, Linear.applyBatch,
      squeezeLast, h1, h2, h3, h4]

/-- Witness for C8: a concrete batch of size one through the concrete model. -/
theorem predict_output_shapes_witness :
    ((exampleModel true).predict_sentiment [[7]] [[1]]).length = 1
    ∧ (∀ row ∈ (exampleModel true).predict_sentiment [[7]] [[1]],
        row.length = N_SENTIMENT_CLASSES)
    ∧ (({ exampleModel true with siamese := false }).predict_paraphrase
        [[7]] [[1]] [[8]] [[1]]).length = 1
    ∧ (({ exampleModel true with siamese := true }).predict_paraphrase
        [[7]] [[1]] [[8]] [[1]]).length = 1
    ∧ (({ exampleModel true with siamese := false }).predict_similarity
        [[7]] [[1]] [[8]] [[1]]).length = 1
    ∧ (({ exampleModel true with siamese := true }).predict_similarity
        [[7]] [[1]] [[8]] [[1]]).length = 1 :=
  predict_output_shapes (exampleModel true) 1 rfl rfl rfl rfl rfl rfl rfl rfl rfl rfl
    [[7]] [[1]] [[8]] [[1]] rfl rfl rfl rfl

/-- The two admissible values of `config.fine_tune_mode` (the constructor
asserts membership in `["last-linear-layer", "full-model"]`, source line 70). -/
inductive FineTuneMode where
  | last_linear_layer
  | full_model
deriving DecidableEq, Repr

/-- A tensor parameter, reduced to one scalar coordinate: its value and its
`requires_grad` flag. -/
structure Param where
  value : ℚ
  requires_grad : Bool
deriving DecidableEq, Repr

/-- Embedding of the constructor loop over `self.bert.parameters()`
(source lines 71-75): frozen mode clears `requires_grad` on every encoder
parameter, full mode sets it on every encoder parameter. -/
def set_fine_tune_mode (mode : FineTuneMode) (ps : List Param) : List Param :=
  ps.map fun p =>
    match mode with
    | .last_linear_layer => { p with requires_grad := false }
    | .full_model => { p with requires_grad := true }

/-- Modelled from the spec: the external autograd/optimizer contract ("all
encoder parameters are excluded from gradient updates" when not tracked).
One `loss.backward(); optimizer.step()` pass applies a per-parameter
decrement to exactly the parameters whose `requires_grad` flag is set;
parameters outside gradient tracking are returned unchanged. -/
def optimizer_step (grads : List ℚ) (ps : List Param) : List Param :=
  List.zipWith
    (fun g p => if p.requires_grad then { p with value := p.value - g } else p)
    grads ps

/-- C4: in frozen (`last-linear-layer`) mode every encoder parameter has
gradient tracking disabled, so a training step with any gradients leaves
every encoder parameter value unchanged; in `full-model` mode every
encoder parameter is trainable.  The mode is all-or-nothing over the
encoder parameter list, and a parameter with gradient tracking enabled
(such as the freshly constructed head parameters) is updated by the step. -/
theorem fine_tune_mode_freezes_encoder :
    (∀ (ps : List Param) (grads : List ℚ), grads.length = ps.length →
        (optimizer_step grads (set_fine_tune_mode .last_linear_layer ps)).map Param.value =
          ps.map Param.value)
    ∧ (∀ ps : List Param, ∀ p ∈ set_fine_tune_mode .last_linear_layer ps,
        p.requires_grad = false)
    ∧ (∀ ps : List Param, ∀ p ∈ set_fine_tune_mode .full_model ps,
        p.requires_grad = true)
    ∧ (∀ (p : Param) (g : ℚ), p.requires_grad = true →
        optimizer_step [g] [p] = [{ p with value := p.value - g }]) := by
  refine ⟨?_, ?_, ?_, ?_⟩
  · intro ps
    induction ps with
    | nil => intro grads _; simp [set_fine_tune_mode, optimizer_step]
    | cons p t ih =>
        intro grads hlen
        cases grads with
        | nil => simp at hlen
        | cons g gt =>
            simp only [set_fine_tune_mode, List.map_cons, optimizer_step,
              List.zipWith_cons_cons, if_neg (by simp : ¬ (false = true))]
            have := ih gt (by simpa using hlen)
            simp only [set_fine_tune_mode, optimizer_step] at this
            simp [this]
  · intro ps p hp
    rcases List.mem_map.mp hp with ⟨q, _, rfl⟩
    rfl
  · intro ps p hp
    rcases List.mem_map.mp hp with ⟨q, _, rfl⟩
    rfl
  · intro p g hp
    simp [optimizer_step, hp]

/-- Witness for C4: a freezing step on one concrete encoder parameter. -/
theorem fine_tune_mode_freezes_encoder_witness :
    (optimizer_step [5] (set_fine_tune_mode .last_linear_layer [⟨3, true⟩])).map Param.value
      = [⟨3, true⟩].map Param.value :=
  fine_tune_mode_freezes_encoder.1 [⟨3, true⟩] [5] rfl

/-- Per-example term of `F.cross_entropy` with logits `row` and integer
label `y`: the log-sum-exp of the logits minus the logit at the label. -/
noncomputable def cross_entropy_term (row : List ℝ) (y : ℕ) : ℝ :=
  Real.log ((row.map Real.exp).sum) - row.getD y 0

/-- Embedding of `F.cross_entropy(logits, labels, reduction='sum')`. -/
noncomputable def cross_entropy_sum (logits : List (List ℝ)) (labels : List ℕ) : ℝ :=
  (List.zipWith cross_entropy_term logits labels).sum

/-- Embedding of the sentiment loss of one training step (source line 283):
`F.cross_entropy(logits, b_labels.view(-1), reduction='sum') / args.batch_size`,
where `batch_size` is the configured batch size, not the size of the
current batch. -/
noncomputable def sst_step_loss (batch_size : ℕ) (logits : List (List ℝ))
    (labels : List ℕ) : ℝ :=
  cross_entropy_sum logits labels / (batch_size : ℝ)

/-- The textbook multi-class cross-entropy of one example: minus the log
of the softmax probability assigned to the true class. -/
noncomputable def neg_log_softmax (row : List ℝ) (y : ℕ) : ℝ :=
  -Real.log (Real.exp (row.getD y 0) / (row.map Real.exp).sum)

lemma exp_sum_pos {row : List ℝ} (hne : row ≠ []) :
    0 < (row.map Real.exp).sum := by
  refine List.sum_pos _ ?_ (by simpa using hne)
  intro x hx
  rcases List.mem_map.mp hx with ⟨a, _, rfl⟩
  exact Real.exp_pos a

lemma cross_entropy_term_eq_neg_log_softmax {row : List ℝ} (y : ℕ) (hne : row ≠ []) :
    cross_entropy_term row y = neg_log_softmax row y := by
  unfold cross_entropy_term neg_log_softmax
  rw [Real.log_div (Real.exp_ne_zero _) (ne_of_gt (exp_sum_pos hne)), Real.log_exp]
  ring

lemma zipWith_ce_eq_zipWith_nls :
    ∀ (logits : List (List ℝ)) (labels : List ℕ), (∀ row ∈ logits, row ≠ []) →
      List.zipWith cross_entropy_term logits labels =
        List.zipWith neg_log_softmax logits labels := by
  intro logits
  induction logits with
  | nil => intro labels _; simp
  | cons r t ih =>
      intro labels hrows
      cases labels with
      | nil => simp
      | cons y yt =>
          simp only [List.zipWith_cons_cons]
          rw [cross_entropy_term_eq_neg_log_softmax y (hrows r (by simp)),
            ih yt (fun row hr => hrows row (by simp [hr]))]

/-- C5: the sentiment step loss is the multi-class cross-entropy (minus
log softmax at the integer label) summed over the batch and divided by
the configured batch size — including for a partial batch whose actual
size differs from the configured one; concretely, a single-example batch
with configured batch size 8 yields `log 2 / 8`, which is not the
per-example mean `log 2` of that batch. -/
theorem sst_step_loss_sum_div_configured_batch :
    (∀ (batch_size : ℕ) (logits : List (List ℝ)) (labels : List ℕ),
        (∀ row ∈ logits, row ≠ []) →
        sst_step_loss batch_size logits labels =
          (List.zipWith neg_log_softmax logits labels).sum / (batch_size : ℝ))
    ∧ sst_step_loss 8 [[0, 0]] [0] = Real.log 2 / 8
    ∧ sst_step_loss 8 [[0, 0]] [0] ≠ neg_log_softmax [0, 0] 0 := by
  have hval : sst_step_loss 8 [[0, 0]] [0] = Real.log 2 / 8 := by
    unfold sst_step_loss cross_entropy_sum cross_entropy_term
    norm_num [Real.exp_zero]
  have hnls : neg_log_softmax [0, 0] 0 = Real.log 2 := by
    unfold neg_log_softmax
    simp only [List.getD_cons_zero, List.map_cons, List.map_nil, List.sum_cons,
      List.sum_nil, Real.exp_zero]
    norm_num
    rw [one_div, Real.log_inv]
    ring
  refine ⟨?_, hval, ?_⟩
  · intro batch_size logits labels hrows
    unfold sst_step_loss cross_entropy_sum
    rw [zipWith_ce_eq_zipWith_nls logits labels hrows]
  · rw [hval, hnls]
    have hlog : 0 < Real.log 2 := Real.log_pos (by norm_num)
    intro hcontra
    have h8 : Real.log 2 / 8 < Real.log 2 := by linarith
    exact (ne_of_lt h8) hcontra

/-- Witness for C5: the sum-then-divide clause on a concrete partial batch. -/
theorem sst_step_loss_sum_div_configured_batch_witness :
    sst_step_loss 8 [[0, 0]] [0] =
      (List.zipWith neg_log_softmax [[0, 0]] [0]).sum / ((8 : ℕ) : ℝ) :=
  sst_step_loss_sum_div_configured_batch.1 8 [[0, 0]] [0]
    (by intro row hr; rcases List.mem_singleton.mp hr with rfl; simp)

/-- The record assembled by `save_model` (source lines 150-162): snapshots of
the model state, optimizer state, args, config and RNG states, each reduced
to an opaque tag. -/
structure SaveInfo where
  model : ℕ
  optim : ℕ
  args : ℕ
  model_config : ℕ
  rng : ℕ
deriving DecidableEq, Repr

/-- Embedding of `save_model`'s effect on the file system.  Modelled from the
spec: `torch.save` is the external serializer, whose contract is that the
checkpoint record is "overwritten (not appended) at the same path"; the file
system is a map from paths to the record last written there. -/
def save_model (save_info : SaveInfo) (filepath : String)
    (fs : String → Option SaveInfo) : String → Option SaveInfo :=
  fun p => if p = filepath then some save_info else fs p

/-- Embedding of the end-of-epoch checkpoint decision (source lines 295-299):
average the three dev metrics, and on strict improvement over the best seen
average update the best and save; otherwise change nothing. -/
def epoch_checkpoint (dev_sentiment_accuracy dev_paraphrase_accuracy dev_sts_corr : ℚ)
    (best_avg_dev_acc : ℚ) (save_info : SaveInfo) (filepath : String)
    (fs : String → Option SaveInfo) : ℚ × (String → Option SaveInfo) :=
  let avg_dev_acc := (dev_sentiment_accuracy + dev_paraphrase_accuracy + dev_sts_corr) / 3
  if avg_dev_acc > best_avg_dev_acc then (avg_dev_acc, save_model save_info filepath fs)
  else (best_avg_dev_acc, fs)

/-- C6: at the end of an epoch a checkpoint is written if and only if the
unweighted average of the three dev metrics strictly exceeds the best
average seen so far; when it is written it replaces whatever was at the
caller-chosen path (touching no other path) and the best-seen value
becomes the new average; otherwise the best value and the file system are
both left unchanged. -/
theorem epoch_checkpoint_iff_strict_improvement
    (s p c best : ℚ) (save_info : SaveInfo) (filepath : String)
    (fs : String → Option SaveInfo) :
    ((s + p + c) / 3 > best →
        (epoch_checkpoint s p c best save_info filepath fs).2 filepath = some save_info
        ∧ (epoch_checkpoint s p c best save_info filepath fs).1 = (s + p + c) / 3
        ∧ ∀ q : String, q ≠ filepath →
            (epoch_checkpoint s p c best save_info filepath fs).2 q = fs q)
    ∧ (¬ (s + p + c) / 3 > best →
        epoch_checkpoint s p c best save_info filepath fs = (best, fs)) := by
  constructor
  · intro h
    unfold epoch_checkpoint
    rw [if_pos h]
    refine ⟨?_, rfl, ?_⟩
    · simp [save_model]
    · intro q hq
      simp [save_model, hq]
  · intro h
    unfold epoch_checkpoint
    rw [if_neg h]

/-- A concrete checkpoint record used by the witnesses. -/
def exampleSaveInfo : SaveInfo := ⟨0, 1, 2, 3, 4⟩

/-- Witness for C6: a strictly improving epoch writes the checkpoint. -/
theorem epoch_checkpoint_iff_strict_improvement_witness :
    (epoch_checkpoint 1 1 1 0 exampleSaveInfo "multitask.pt" (fun _ => none)).2
        "multitask.pt" = some exampleSaveInfo :=
  ((epoch_checkpoint_iff_strict_improvement 1 1 1 0 exampleSaveInfo "multitask.pt"
    (fun _ => none)).1 (by norm_num)).1

/-- The initial value of `best_avg_dev_acc` (source line 236). -/
def best_avg_dev_acc_init : ℚ := 0

/-- The sequence of end-of-epoch checkpoint decisions of `train_multitask`:
fold `epoch_checkpoint` over the per-epoch dev metric triples (with the
checkpoint record captured at that epoch), starting from the initial best
value and an arbitrary initial file system. -/
def train_checkpoint_loop (filepath : String)
    (epochs : List ((ℚ × ℚ × ℚ) × SaveInfo))
    (fs : String → Option SaveInfo) : ℚ × (String → Option SaveInfo) :=
  epochs.foldl
    (fun st e => epoch_checkpoint e.1.1 e.1.2.1 e.1.2.2 st.1 e.2 filepath st.2)
    (best_avg_dev_acc_init, fs)

/-- C10: the best-seen dev average starts at `0`, so a checkpoint is only
ever written in an epoch whose dev average strictly exceeds `0`; if every
epoch's average of the three dev metrics is `≤ 0` (possible, since the
similarity metric is a correlation), the whole training run writes no
checkpoint and the best value stays `0`. -/
theorem no_checkpoint_when_dev_average_never_positive :
    best_avg_dev_acc_init = 0
    ∧ ∀ (filepath : String) (epochs : List ((ℚ × ℚ × ℚ) × SaveInfo))
        (fs : String → Option SaveInfo),
        (∀ e ∈ epochs, (e.1.1 + e.1.2.1 + e.1.2.2) / 3 ≤ 0) →
        train_checkpoint_loop filepath epochs fs = (0, fs) := by
  refine ⟨rfl, ?_⟩
  intro filepath epochs
  unfold train_checkpoint_loop best_avg_dev_acc_init
  induction epochs with
  | nil => intro fs _; rfl
  | cons e t ih =>
      intro fs hall
      rw [List.foldl_cons]
      have hstep : epoch_checkpoint e.1.1 e.1.2.1 e.1.2.2 0 e.2 filepath fs = (0, fs) := by
        unfold epoch_checkpoint
        rw [if_neg (by push_neg; exact le_trans (hall e (by simp)) (by norm_num))]
      rw [hstep]
      exact ih fs (fun x hx => hall x (by simp [hx]))

/-- Witness for C10: one epoch with all three dev metrics at zero writes
nothing. -/
theorem no_checkpoint_when_dev_average_never_positive_witness :
    train_checkpoint_loop "multitask.pt" [((0, 0, 0), exampleSaveInfo)] (fun _ => none)
      = (0, fun _ => none) :=
  no_checkpoint_when_dev_average_never_positive.2 "multitask.pt"
    [((0, 0, 0), exampleSaveInfo)] (fun _ => none)
    (by intro e he; rcases List.mem_singleton.mp he with rfl; norm_num)

/-- Modelled from the spec: the stream produced by the `cycle` generator
(source lines 173-176) around a shuffled dataloader.  Each pass of the inner
`for` restarts iteration of the dataloader, whose `RandomSampler` contract is
that every pass is a fresh complete shuffled traversal of the dataset; `perms
k` is the order of the `k`-th pass, and the element pulled at global position
`n` is entry `n % N` of pass `n / N` (`N` = dataset size).  `stream_next`
returns `none` exactly when the pull would not produce an element. -/
def stream_next {α : Type} (perms : ℕ → List α) (N : ℕ) (n : ℕ) : Option α :=
  (perms (n / N))[n % N]?

/-- Total-function view of the same stream (the default `d` is never used
when the dataset is nonempty and every pass traverses it). -/
def stream_elem {α : Type} (perms : ℕ → List α) (N : ℕ) (d : α) (n : ℕ) : α :=
  (perms (n / N)).getD (n % N) d

/-- A legitimate sequence of shuffle outcomes over the dataset `[0, 1]`:
the first pass happens to come out as `[1, 0]`, every later pass as
`[0, 1]`. -/
def twoPassPerms : ℕ → List ℕ := fun k => if k = 0 then [1, 0] else [0, 1]

/-- C9 counterexample: with the two-element dataset `[0, 1]` and the
legitimate shuffle outcome whose first pass is `[1, 0]` and later passes
are `[0, 1]`, the stream is `1, 0, 0, 1, ...`: positions 1 and 2 are two
occurrences of example `0` with no occurrence of example `1` between
them, refuting "between any two occurrences of the same example, every
other example occurs at least once". -/
theorem cycle_between_occurrences_counterexample :
    (∀ k, (twoPassPerms k).Perm [0, 1])
    ∧ ¬ (∀ i j : ℕ, i < j →
          stream_elem twoPassPerms 2 0 i = stream_elem twoPassPerms 2 0 j →
          ∀ y ∈ ([0, 1] : List ℕ), y ≠ stream_elem twoPassPerms 2 0 i →
            ∃ m, i < m ∧ m < j ∧ stream_elem twoPassPerms 2 0 m = y) := by
  constructor
  · intro k
    match k with
    | 0 => decide
    | (k + 1) => simp [twoPassPerms]
  · intro hcl
    rcases hcl 1 2 (by norm_num) (by decide) 1 (by simp) (by decide)
      with ⟨m, h1m, hm2, _⟩
    omega

/-- C9 (amended): over a nonempty dataset of distinct examples, with every
pass a complete shuffled traversal, the cyclic stream never fails to
produce an element however many pulls are made; every pass contains every
example of the dataset; and every example of the dataset occurs at least
once before any example occurs a second time. -/
theorem cycle_stream_no_exhaustion_and_full_pass {α : Type} (data : List α)
    (perms : ℕ → List α) (d : α) (hnd : data.Nodup) (hne : data ≠ [])
    (hp : ∀ k, (perms k).Perm data) :
    (∀ n, (stream_next perms data.length n).isSome = true)
    ∧ (∀ k, ∀ y ∈ data, y ∈ perms k)
    ∧ (∀ i j, i < j →
        stream_elem perms data.length d i = stream_elem perms data.length d j →
        ∀ y ∈ data, ∃ m, m < j ∧ stream_elem perms data.length d m = y) := by
  have hN : 0 < data.length := List.length_pos.mpr hne
  have hlen : ∀ k, (perms k).length = data.length := fun k => (hp k).length_eq
  refine ⟨?_, ?_, ?_⟩
  · intro n
    unfold stream_next
    have h : n % data.length < (perms (n / data.length)).length := by
      rw [hlen]
      exact Nat.mod_lt _ hN
    rw [List.getElem?_eq_getElem h]
    rfl
  · intro k y hy
    exact ((hp k).mem_iff).mpr hy
  · intro i j hij heq y hy
    have hNj : data.length ≤ j := by
      by_contra hj
      push_neg at hj
      have hi : i < data.length := lt_trans hij hj
      have hi0 : i / data.length = 0 := Nat.div_eq_of_lt hi
      have hj0 : j / data.length = 0 := Nat.div_eq_of_lt hj
      have him : i % data.length = i := Nat.mod_eq_of_lt hi
      have hjm : j % data.length = j := Nat.mod_eq_of_lt hj
      have hi' : i < (perms 0).length := by rw [hlen]; exact hi
      have hj' : j < (perms 0).length := by rw [hlen]; exact hj
      have hnd0 : (perms 0).Nodup := ((hp 0).nodup_iff).mpr hnd
      have heq' : (perms 0)[i] = (perms 0)[j] := by
        have e1 : stream_elem perms data.length d i = (perms 0)[i] := by
          unfold stream_elem
          rw [hi0, him]
          exact List.getD_eq_getElem _ _ hi'
        have e2 : stream_elem perms data.length d j = (perms 0)[j] := by
          unfold stream_elem
          rw [hj0, hjm]
          exact List.getD_eq_getElem _ _ hj'
        rw [← e1, ← e2, heq]
      have : i = j := (List.Nodup.getElem_inj_iff hnd0).mp heq'
      omega
    have hy0 : y ∈ perms 0 := ((hp 0).mem_iff).mpr hy
    rcases List.mem_iff_getElem.mp hy0 with ⟨m, hm, hmy⟩
    have hmN : m < data.length := by rw [← hlen 0]; exact hm
    refine ⟨m, lt_of_lt_of_le hmN hNj, ?_⟩
    unfold stream_elem
    rw [Nat.div_eq_of_lt hmN, Nat.mod_eq_of_lt hmN]
    rw [List.getD_eq_getElem _ _ hm]
    exact hmy

/-- Witness for C9 (amended): the constant identity shuffle on `[0, 1]`
never exhausts at pull 5. -/
theorem cycle_stream_no_exhaustion_and_full_pass_witness :
    (stream_next (fun _ => ([0, 1] : List ℕ)) 2 5).isSome = true :=
  (cycle_stream_no_exhaustion_and_full_pass [0, 1] (fun _ => [0, 1]) 0
    (by decide) (by decide) (fun _ => List.Perm.refl _)).1 5

end MinBert
